import Mathlib

/-!
Shallow embedding of the shared-expense settlement core of the FinVault
backend (src/backend/server.py): the `create_shared_expense`,
`confirm_shared_expense` and `get_settlements` route handlers and the data
they operate on.

Modelling choices:
* Python floats carrying monetary amounts are modelled as exact rationals
  (`ℚ`); Python's `round(x, 2)` is modelled as rounding to 2 decimal places
  with ties going to the even integer (half-even), the idealised decimal
  reading of Python's rounding.
* The MongoDB collections are modelled as lists; `find_one` on a filter is
  first-match lookup, `update_one` with a `$set` rewrites the first matching
  document, `insert_one` appends.
* A route handler that can raise `HTTPException` is modelled as a function
  returning the updated store together with `Except HTTPException result`;
  a raised exception leaves the store exactly as it was at the raise point.
-/

namespace FinVault

/-- An identity record, the projection of a `users` document that
`create_shared_expense` reads (`id`, `email`, `full_name`). -/
structure User where
  id : String
  email : String
  full_name : String
deriving DecidableEq

/-- The `SplitType` enum of server.py. -/
inductive SplitType where
  | EQUAL
  | CUSTOM
deriving DecidableEq

/-- The `SharedExpenseParticipant` model of server.py. -/
structure SharedExpenseParticipant where
  user_id : String
  email : String
  full_name : String
  amount : ℚ
  paid : ℚ
  confirmed : Bool
deriving DecidableEq

/-- The `SharedExpense` model of server.py (timestamps kept as opaque
strings). -/
structure SharedExpense where
  id : String
  title : String
  description : String
  total_amount : ℚ
  currency : String
  creator_id : String
  participants : List SharedExpenseParticipant
  split_type : SplitType
  status : String
  category_id : Option String
  date : String
  receipt_url : Option String
  created_at : String
deriving DecidableEq

/-- The `SharedExpenseCreate` request model of server.py. -/
structure SharedExpenseCreate where
  title : String
  description : String
  total_amount : ℚ
  currency : String
  participant_emails : List String
  split_type : SplitType
  category_id : Option String
  date : String
  receipt_url : Option String
deriving DecidableEq

/-- FastAPI's `HTTPException(status_code, detail)`. -/
structure HTTPException where
  status_code : Nat
  detail : String
deriving DecidableEq

/-- Round a rational to the nearest integer, ties to the even integer
(the rounding used by Python's builtin `round`). -/
def roundHalfEven (q : ℚ) : ℤ :=
  let f := ⌊q⌋
  if q - f < 1/2 then f
  else if (1 : ℚ)/2 < q - f then f + 1
  else if f % 2 = 0 then f else f + 1

/-- Python's `round(q, 2)`: round to 2 decimal places, ties to even. -/
def round2 (q : ℚ) : ℚ := (roundHalfEven (q * 100) : ℚ) / 100

/-- `db.users.find_one({"email": email})`: first user whose email matches. -/
def find_user_by_email : List User → String → Option User
  | [], _ => none
  | u :: us, email => if u.email = email then some u else find_user_by_email us email

/-- The participant dict built for a resolved invitee in
`create_shared_expense` (server.py lines 462-469). -/
def invitee_entry (u : User) : SharedExpenseParticipant :=
  { user_id := u.id
    email := u.email
    full_name := u.full_name
    amount := 0
    paid := 0
    confirmed := false }

/-- The participant dict appended for the creator in
`create_shared_expense` (server.py lines 472-479). -/
def creator_entry (cu : User) (total_amount : ℚ) : SharedExpenseParticipant :=
  { user_id := cu.id
    email := cu.email
    full_name := cu.full_name
    amount := 0
    paid := total_amount
    confirmed := true }

/-- The split computation of `create_shared_expense` (server.py lines
481-485): for an EQUAL split every participant's `amount` becomes
`round(total_amount / len(participants), 2)`; otherwise amounts are left
as built. -/
def apply_split (data : SharedExpenseCreate)
    (participants : List SharedExpenseParticipant) : List SharedExpenseParticipant :=
  if data.split_type = SplitType.EQUAL then
    let amount_per_person : ℚ := data.total_amount / (participants.length : ℚ)
    participants.map (fun p => { p with amount := round2 amount_per_person })
  else participants

/-- The `expense_doc` built and returned by `create_shared_expense`
(server.py lines 457-502): resolved invitees in input order, then the
creator, then the split computation, then the document fields. -/
def build_shared_expense (users : List User) (data : SharedExpenseCreate)
    (current_user : User) (expense_id : String) (now : String) : SharedExpense :=
  let invitees :=
    (data.participant_emails.filterMap (find_user_by_email users)).map invitee_entry
  let participants :=
    apply_split data (invitees ++ [creator_entry current_user data.total_amount])
  { id := expense_id
    title := data.title
    description := data.description
    total_amount := data.total_amount
    currency := data.currency
    creator_id := current_user.id
    participants := participants
    split_type := data.split_type
    status := "active"
    category_id := data.category_id
    date := data.date
    receipt_url := data.receipt_url
    created_at := now }

/-- The `create_shared_expense` route (server.py lines 455-521): the
document is inserted into the store and returned; the handler has no
failure path (no validation of `total_amount`, unresolved emails are
skipped). `expense_id` stands for the generated uuid and `now` for the
server clock. -/
def create_shared_expense (store : List SharedExpense) (users : List User)
    (data : SharedExpenseCreate) (current_user : User) (expense_id : String)
    (now : String) : List SharedExpense × Except HTTPException SharedExpense :=
  let doc := build_shared_expense users data current_user expense_id now
  (store ++ [doc], Except.ok doc)

/-- `db.shared_expenses.find_one({"id": eid})`: first expense whose id
matches. -/
def find_expense : List SharedExpense → String → Option SharedExpense
  | [], _ => none
  | e :: es, eid => if e.id = eid then some e else find_expense es eid

/-- The confirmation loop of `confirm_shared_expense` (server.py lines
530-536): set `confirmed := true` on the first participant whose
`user_id` matches and stop; the boolean is the `updated` flag. -/
def confirmParticipants : List SharedExpenseParticipant → String →
    List SharedExpenseParticipant × Bool
  | [], _ => ([], false)
  | p :: ps, uid =>
    if p.user_id = uid then ({ p with confirmed := true } :: ps, true)
    else ((confirmParticipants ps uid).1.cons p, (confirmParticipants ps uid).2)

/-- `db.shared_expenses.update_one({"id": eid}, {"$set": {"participants":
ps}})`: rewrite the participants of the first expense whose id matches. -/
def update_participants : List SharedExpense → String →
    List SharedExpenseParticipant → List SharedExpense
  | [], _, _ => []
  | e :: es, eid, ps =>
    if e.id = eid then { e with participants := ps } :: es
    else (update_participants es eid ps).cons e

/-- The `confirm_shared_expense` route (server.py lines 523-546): 404 if
the expense is absent, 403 if the caller matches no participant (store
untouched in both cases), otherwise the updated participant list is
written back. -/
def confirm_shared_expense (store : List SharedExpense) (expense_id : String)
    (current_user_id : String) : List SharedExpense × Except HTTPException String :=
  match find_expense store expense_id with
  | none => (store, Except.error ⟨404, "Shared expense not found"⟩)
  | some expense =>
    if (confirmParticipants expense.participants current_user_id).2 then
      (update_participants store expense_id
        (confirmParticipants expense.participants current_user_id).1,
       Except.ok "Confirmed")
    else
      (store, Except.error ⟨403, "You are not a participant"⟩)

/-- One settlement record as produced by `get_settlements`. -/
structure SettlementRecord where
  user_id : String
  user_name : String
  amount_owed : ℚ
  amount_paid : ℚ
  balance : ℚ
  status : String
deriving DecidableEq

/-- The record computed for one participant in `get_settlements`
(server.py lines 555-564). -/
def settlementOf (p : SharedExpenseParticipant) : SettlementRecord :=
  { user_id := p.user_id
    user_name := p.full_name
    amount_owed := p.amount
    amount_paid := p.paid
    balance := p.paid - p.amount
    status := if p.paid - p.amount ≥ 0 then "settled" else "owes" }

/-- The `get_settlements` route (server.py lines 548-566): 404 if the
expense is absent, otherwise one record per participant in stored order;
the store is never written. -/
def get_settlements (store : List SharedExpense) (expense_id : String) :
    List SharedExpense × Except HTTPException (List SettlementRecord) :=
  match find_expense store expense_id with
  | none => (store, Except.error ⟨404, "Shared expense not found"⟩)
  | some expense => (store, Except.ok (expense.participants.map settlementOf))

/-- What a single confirm call may do to one participant entry: every
field except `confirmed` is unchanged, `confirmed` may only change to
`true` and only on an entry whose `user_id` is the caller, and a `true`
flag never becomes `false`. -/
def confirm_frame (uid : String) (p q : SharedExpenseParticipant) : Prop :=
  q.user_id = p.user_id ∧ q.email = p.email ∧ q.full_name = p.full_name ∧
  q.amount = p.amount ∧ q.paid = p.paid ∧
  (q.confirmed = p.confirmed ∨ (q.confirmed = true ∧ p.user_id = uid)) ∧
  (p.confirmed = true → q.confirmed = true)

/-! ### Concrete example data -/

def annU : User := { id := "u-ann", email := "ann@x", full_name := "Ann" }

def bobU : User := { id := "u-bob", email := "bob@x", full_name := "Bob" }

def carolU : User := { id := "u-carol", email := "carol@x", full_name := "Carol" }

def usersEx : List User := [bobU, carolU]

def dataEx : SharedExpenseCreate :=
  { title := "Trip", description := "Beach trip", total_amount := 300000,
    currency := "VND", participant_emails := ["bob@x", "carol@x"],
    split_type := SplitType.EQUAL, category_id := none,
    date := "2025-01-01", receipt_url := none }

def expenseEx : SharedExpense := build_shared_expense usersEx dataEx annU "e1" "t1"

def negU : User := { id := "u-neg", email := "neg@x", full_name := "Neg" }

def negData : SharedExpenseCreate :=
  { title := "Bad", description := "Negative total", total_amount := -5,
    currency := "VND", participant_emails := [], split_type := SplitType.EQUAL,
    category_id := none, date := "2025-01-02", receipt_url := none }

def ghostData : SharedExpenseCreate :=
  { title := "Ghost", description := "Unresolvable invitee",
    total_amount := 50, currency := "VND", participant_emails := ["ghost@x"],
    split_type := SplitType.EQUAL, category_id := none,
    date := "2025-01-03", receipt_url := none }

def ghostExpense : SharedExpense := build_shared_expense [bobU] ghostData annU "e8" "t8"

def aliceU : User := { id := "u-alice", email := "alice@x", full_name := "Alice" }

def selfData : SharedExpenseCreate :=
  { title := "Self invite", description := "Creator also invited",
    total_amount := 100, currency := "VND", participant_emails := ["alice@x"],
    split_type := SplitType.EQUAL, category_id := none,
    date := "2025-01-04", receipt_url := none }

def carolP : SharedExpenseParticipant :=
  { user_id := "u-carol", email := "carol@x", full_name := "Carol",
    amount := 10, paid := 0, confirmed := false }

def dupP1 : SharedExpenseParticipant :=
  { user_id := "u-alice", email := "alice@x", full_name := "Alice",
    amount := 10, paid := 0, confirmed := false }

def dupP2 : SharedExpenseParticipant :=
  { user_id := "u-alice", email := "alice@x", full_name := "Alice",
    amount := 10, paid := 20, confirmed := true }

def dupExpense : SharedExpense :=
  { id := "e10", title := "Dup", description := "Duplicate entries",
    total_amount := 30, currency := "VND", creator_id := "u-alice",
    participants := [carolP, dupP1, dupP2], split_type := SplitType.EQUAL,
    status := "active", category_id := none, date := "2025-01-05",
    receipt_url := none, created_at := "t10" }

/-! ### Helper lemmas -/

theorem sum_map_const {α : Type} (l : List α) (c : ℚ) :
    (l.map fun _ => c).sum = l.length * c := by
  induction l with
  | nil => simp
  | cons x xs ih => simp [ih]; ring

theorem roundHalfEven_intCast (n : ℤ) : roundHalfEven (n : ℚ) = n := by
  simp [roundHalfEven]

theorem confirmParticipants_no_match (ps : List SharedExpenseParticipant)
    (uid : String) (h : ∀ p ∈ ps, p.user_id ≠ uid) :
    confirmParticipants ps uid = (ps, false) := by
  induction ps with
  | nil => rfl
  | cons p ps ih =>
    have hp : p.user_id ≠ uid := h p (List.mem_cons_self p ps)
    have ht : ∀ q ∈ ps, q.user_id ≠ uid := fun q hq => h q (List.mem_cons_of_mem p hq)
    simp [confirmParticipants, hp, ih ht]

theorem confirmParticipants_first_match (l₁ l₂ : List SharedExpenseParticipant)
    (p : SharedExpenseParticipant) (uid : String)
    (h₁ : ∀ q ∈ l₁, q.user_id ≠ uid) (hp : p.user_id = uid) :
    confirmParticipants (l₁ ++ p :: l₂) uid =
      (l₁ ++ { p with confirmed := true } :: l₂, true) := by
  induction l₁ with
  | nil => simp [confirmParticipants, hp]
  | cons q l₁ ih =>
    have hq : q.user_id ≠ uid := h₁ q (List.mem_cons_self q l₁)
    have ht : ∀ r ∈ l₁, r.user_id ≠ uid := fun r hr => h₁ r (List.mem_cons_of_mem q hr)
    simp [confirmParticipants, hq, ih ht]

theorem confirmParticipants_idem (ps : List SharedExpenseParticipant) (uid : String) :
    confirmParticipants (confirmParticipants ps uid).1 uid = confirmParticipants ps uid := by
  induction ps with
  | nil => rfl
  | cons p ps ih =>
    by_cases hp : p.user_id = uid
    · simp [confirmParticipants, hp]
    · simp [confirmParticipants, hp, ih]

theorem confirmParticipants_already (ps : List SharedExpenseParticipant) (uid : String)
    (h : ∀ p ∈ ps, p.user_id = uid → p.confirmed = true) :
    (confirmParticipants ps uid).1 = ps := by
  induction ps with
  | nil => rfl
  | cons p ps ih =>
    by_cases hp : p.user_id = uid
    · have hc : p.confirmed = true := h p (List.mem_cons_self p ps) hp
      simp [confirmParticipants, hp]
      cases p
      simp_all
    · have ht : ∀ q ∈ ps, q.user_id = uid → q.confirmed = true :=
        fun q hq => h q (List.mem_cons_of_mem p hq)
      simp [confirmParticipants, hp, ih ht]

theorem confirm_frame_self (uid : String) (p : SharedExpenseParticipant) :
    confirm_frame uid p p := by
  refine ⟨rfl, rfl, rfl, rfl, rfl, Or.inl rfl, fun h => h⟩

theorem confirmParticipants_frame (ps : List SharedExpenseParticipant) (uid : String) :
    List.Forall₂ (confirm_frame uid) ps (confirmParticipants ps uid).1 := by
  induction ps with
  | nil => exact List.Forall₂.nil
  | cons p ps ih =>
    by_cases hp : p.user_id = uid
    · have h1 : confirmParticipants (p :: ps) uid =
          ({ p with confirmed := true } :: ps, true) := by
        simp [confirmParticipants, hp]
      rw [h1]
      refine List.Forall₂.cons ?_ (List.forall₂_same.2 fun x _ => confirm_frame_self uid x)
      exact ⟨rfl, rfl, rfl, rfl, rfl, Or.inr ⟨rfl, hp⟩, fun _ => rfl⟩
    · have h1 : (confirmParticipants (p :: ps) uid).1 =
          p :: (confirmParticipants ps uid).1 := by
        simp [confirmParticipants, hp]
      rw [h1]
      exact List.Forall₂.cons (confirm_frame_self uid p) ih

theorem find_expense_update (store : List SharedExpense) (eid : String)
    (e : SharedExpense) (ps : List SharedExpenseParticipant)
    (h : find_expense store eid = some e) :
    find_expense (update_participants store eid ps) eid =
      some { e with participants := ps } := by
  induction store with
  | nil => simp [find_expense] at h
  | cons f fs ih =>
    by_cases hf : f.id = eid
    · simp [find_expense, hf] at h
      subst h
      simp [update_participants, find_expense, hf]
    · simp [find_expense, hf] at h
      simp [update_participants, find_expense, hf, ih h]

theorem update_participants_twice (store : List SharedExpense) (eid : String)
    (ps ps' : List SharedExpenseParticipant) :
    update_participants (update_participants store eid ps) eid ps' =
      update_participants store eid ps' := by
  induction store with
  | nil => rfl
  | cons f fs ih =>
    by_cases hf : f.id = eid
    · simp [update_participants, hf]
    · simp [update_participants, hf, ih]

theorem update_participants_self (store : List SharedExpense) (eid : String)
    (e : SharedExpense) (h : find_expense store eid = some e) :
    update_participants store eid e.participants = store := by
  induction store with
  | nil => rfl
  | cons f fs ih =>
    by_cases hf : f.id = eid
    · have hfe : f = e := by simpa [find_expense, hf] using h
      subst hfe
      have h1 : update_participants (f :: fs) eid f.participants =
          { f with participants := f.participants } :: fs := by
        simp [update_participants, hf]
      rw [h1]
    · simp [find_expense, hf] at h
      simp [update_participants, hf, ih h]

theorem build_participants (users : List User) (data : SharedExpenseCreate)
    (cu : User) (eid ts : String) :
    (build_shared_expense users data cu eid ts).participants =
      apply_split data
        (((data.participant_emails.filterMap (find_user_by_email users)).map
          invitee_entry) ++ [creator_entry cu data.total_amount]) := rfl

theorem apply_split_equal (data : SharedExpenseCreate)
    (ps : List SharedExpenseParticipant) (h : data.split_type = SplitType.EQUAL) :
    apply_split data ps =
      ps.map (fun p =>
        { p with amount := round2 (data.total_amount / (ps.length : ℚ)) }) := by
  simp [apply_split, h]

theorem apply_split_custom (data : SharedExpenseCreate)
    (ps : List SharedExpenseParticipant) (h : ¬ data.split_type = SplitType.EQUAL) :
    apply_split data ps = ps := by
  simp [apply_split, h]

theorem participants_shape (users : List User) (data : SharedExpenseCreate)
    (cu : User) (eid ts : String) :
    ∃ a : ℚ,
      (build_shared_expense users data cu eid ts).participants =
        ((data.participant_emails.filterMap (find_user_by_email users)).map
          (fun u => { user_id := u.id, email := u.email, full_name := u.full_name,
                      amount := a, paid := 0, confirmed := false })) ++
        [{ user_id := cu.id, email := cu.email, full_name := cu.full_name,
           amount := a, paid := data.total_amount, confirmed := true }] := by
  rw [build_participants]
  by_cases h : data.split_type = SplitType.EQUAL
  · refine ⟨round2 (data.total_amount /
      (((((data.participant_emails.filterMap (find_user_by_email users)).map
        invitee_entry) ++ [creator_entry cu data.total_amount]).length : ℕ) : ℚ)), ?_⟩
    rw [apply_split_equal _ _ h, List.map_append, List.map_map]
    rfl
  · refine ⟨0, ?_⟩
    rw [apply_split_custom _ _ h]
    rfl

theorem participants_user_ids (users : List User) (data : SharedExpenseCreate)
    (cu : User) (eid ts : String) :
    (build_shared_expense users data cu eid ts).participants.map (fun p => p.user_id) =
      ((data.participant_emails.filterMap (find_user_by_email users)).map
        (fun u => u.id)) ++ [cu.id] := by
  obtain ⟨a, ha⟩ := participants_shape users data cu eid ts
  rw [ha, List.map_append, List.map_map]
  rfl

theorem round2_intCast (n : ℤ) : round2 ((n : ℤ) : ℚ) = (n : ℚ) := by
  have h : ((n : ℚ)) * 100 = ((n * 100 : ℤ) : ℚ) := by push_cast; ring
  rw [round2, h, roundHalfEven_intCast]
  push_cast
  field_simp

theorem round2_100000 : round2 ((300000 : ℚ) / 3) = 100000 := by
  have h : ((300000 : ℚ) / 3) = ((100000 : ℤ) : ℚ) := by norm_num
  rw [h, round2_intCast]
  norm_num

theorem expenseEx_participants :
    expenseEx.participants =
      [{ user_id := "u-bob", email := "bob@x", full_name := "Bob",
         amount := 100000, paid := 0, confirmed := false },
       { user_id := "u-carol", email := "carol@x", full_name := "Carol",
         amount := 100000, paid := 0, confirmed := false },
       { user_id := "u-ann", email := "ann@x", full_name := "Ann",
         amount := 100000, paid := 300000, confirmed := true }] := by
  have h1 : expenseEx.participants = apply_split dataEx
      ([invitee_entry bobU, invitee_entry carolU] ++
        [creator_entry annU dataEx.total_amount]) := rfl
  rw [h1, apply_split_equal _ _ rfl]
  simp [invitee_entry, creator_entry, dataEx, bobU, carolU, annU]
  exact round2_100000

/-! ### Claims -/

/-- C1: for every CreateSharedExpense call with splitType EQUAL, each
participant's amount is totalAmount divided by the participant count
rounded to 2 decimal places, and the participants' amounts sum to
totalAmount plus the accumulated per-participant rounding residue, which
is not redistributed. -/
theorem C1_equal_split_rounding (store : List SharedExpense) (users : List User)
    (data : SharedExpenseCreate) (cu : User) (eid ts : String) (e : SharedExpense)
    (hsplit : data.split_type = SplitType.EQUAL)
    (hok : (create_shared_expense store users data cu eid ts).2 = Except.ok e) :
    (∀ p ∈ e.participants,
      p.amount = round2 (data.total_amount / (e.participants.length : ℚ))) ∧
    (e.participants.map (fun p => p.amount)).sum =
      data.total_amount + (e.participants.length : ℚ) *
        (round2 (data.total_amount / (e.participants.length : ℚ)) -
          data.total_amount / (e.participants.length : ℚ)) := by
  have he : build_shared_expense users data cu eid ts = e := by
    simpa [create_shared_expense] using hok
  subst he
  rw [build_participants, apply_split_equal _ _ hsplit]
  set base := ((data.participant_emails.filterMap (find_user_by_email users)).map
    invitee_entry) ++ [creator_entry cu data.total_amount] with hbase
  simp only [List.length_map]
  set c := round2 (data.total_amount / (base.length : ℚ)) with hc
  have hn : (base.length : ℚ) ≠ 0 := by
    have h0 : base.length ≠ 0 := by
      rw [hbase]
      simp
    exact_mod_cast h0
  constructor
  · intro p hp
    obtain ⟨q, hq, rfl⟩ := List.mem_map.1 hp
    rfl
  · have hmm : (base.map (fun p => ({ p with amount := c } :
        SharedExpenseParticipant))).map (fun p => p.amount) =
        base.map (fun _ => c) := by
      rw [List.map_map]
      rfl
    rw [hmm, sum_map_const]
    field_simp
    ring

/-- C1 witness: the EQUAL-split sum property evaluated on a concrete
creation (total 300000 split among 3 participants). -/
theorem C1_witness :
    (expenseEx.participants.map (fun p => p.amount)).sum =
      dataEx.total_amount + (expenseEx.participants.length : ℚ) *
        (round2 (dataEx.total_amount / (expenseEx.participants.length : ℚ)) -
          dataEx.total_amount / (expenseEx.participants.length : ℚ)) :=
  (C1_equal_split_rounding [] usersEx dataEx annU "e1" "t1" expenseEx rfl rfl).2

/-- C2: for every CreateSharedExpense call the participant list is the
resolved invitees first, in input order, with paid 0 and confirmed false,
followed by the creator appended last with paid totalAmount and confirmed
true; in particular the creator is present with confirmed true and paid
totalAmount immediately after creation. -/
theorem C2_participant_list (store : List SharedExpense) (users : List User)
    (data : SharedExpenseCreate) (cu : User) (eid ts : String) (e : SharedExpense)
    (hok : (create_shared_expense store users data cu eid ts).2 = Except.ok e) :
    (∃ a : ℚ,
      e.participants =
        ((data.participant_emails.filterMap (find_user_by_email users)).map
          (fun u => { user_id := u.id, email := u.email, full_name := u.full_name,
                      amount := a, paid := 0, confirmed := false })) ++
        [{ user_id := cu.id, email := cu.email, full_name := cu.full_name,
           amount := a, paid := data.total_amount, confirmed := true }]) ∧
    (∃ p ∈ e.participants,
      p.user_id = cu.id ∧ p.confirmed = true ∧ p.paid = data.total_amount) := by
  have he : build_shared_expense users data cu eid ts = e := by
    simpa [create_shared_expense] using hok
  subst he
  obtain ⟨a, ha⟩ := participants_shape users data cu eid ts
  refine ⟨⟨a, ha⟩, ?_⟩
  refine ⟨{ user_id := cu.id, email := cu.email, full_name := cu.full_name,
            amount := a, paid := data.total_amount, confirmed := true }, ?_, rfl, rfl, rfl⟩
  rw [ha]
  simp

/-- C2 witness: the participant-list shape evaluated on a concrete
creation. -/
theorem C2_witness :
    ∃ a : ℚ,
      expenseEx.participants =
        ((dataEx.participant_emails.filterMap (find_user_by_email usersEx)).map
          (fun u => { user_id := u.id, email := u.email, full_name := u.full_name,
                      amount := a, paid := 0, confirmed := false })) ++
        [{ user_id := annU.id, email := annU.email, full_name := annU.full_name,
           amount := a, paid := dataEx.total_amount, confirmed := true }] :=
  (C2_participant_list [] usersEx dataEx annU "e1" "t1" expenseEx rfl).1

/-- C3: for every stored SharedExpense, GetSettlements returns exactly one
record per participant in stored order with balance = paid - amount and
status settled iff the balance is nonnegative; it mutates nothing and is a
deterministic function of the stored participant list; on the concrete
expense with total 300000 split EQUAL among 3 participants the creator's
balance is 200000 (settled) and each invitee's balance is -100000
(owes). -/
theorem C3_settlements_spec (store : List SharedExpense) (eid : String)
    (e : SharedExpense) (hfind : find_expense store eid = some e) :
    (get_settlements store eid).2 = Except.ok (e.participants.map settlementOf) ∧
    (get_settlements store eid).1 = store ∧
    (∀ p : SharedExpenseParticipant,
      (settlementOf p).balance = p.paid - p.amount ∧
      (settlementOf p).status =
        (if p.paid - p.amount ≥ 0 then "settled" else "owes")) ∧
    (∀ store2 eid2 e2, find_expense store2 eid2 = some e2 →
      e2.participants = e.participants →
      (get_settlements store2 eid2).2 = (get_settlements store eid).2) ∧
    (get_settlements [expenseEx] "e1").2 = Except.ok
      [{ user_id := "u-bob", user_name := "Bob", amount_owed := 100000,
         amount_paid := 0, balance := -100000, status := "owes" },
       { user_id := "u-carol", user_name := "Carol", amount_owed := 100000,
         amount_paid := 0, balance := -100000, status := "owes" },
       { user_id := "u-ann", user_name := "Ann", amount_owed := 100000,
         amount_paid := 300000, balance := 200000, status := "settled" }] := by
  refine ⟨?_, ?_, ?_, ?_, ?_⟩
  · simp [get_settlements, hfind]
  · simp [get_settlements, hfind]
  · intro p
    exact ⟨rfl, rfl⟩
  · intro s2 i2 e2 hf2 hpp
    simp [get_settlements, hfind, hf2, hpp]
  · have h1 : (get_settlements [expenseEx] "e1").2 =
        Except.ok (expenseEx.participants.map settlementOf) := rfl
    rw [h1, expenseEx_participants]
    norm_num [settlementOf]

/-- C3 witness: the read-only guarantee evaluated on a concrete store. -/
theorem C3_witness : (get_settlements [expenseEx] "e1").1 = [expenseEx] :=
  (C3_settlements_spec [expenseEx] "e1" expenseEx rfl).2.1

/-- C4: ConfirmParticipation fails with NotFound (404) when the expense id
references no stored SharedExpense, and with Forbidden (403) when the
caller matches no participant entry; in both error cases the store, and in
particular the stored participant list, is unchanged. -/
theorem C4_confirm_errors (store : List SharedExpense) (eid uid : String)
    (e : SharedExpense) :
    (find_expense store eid = none →
      confirm_shared_expense store eid uid =
        (store, Except.error ⟨404, "Shared expense not found"⟩)) ∧
    (find_expense store eid = some e →
      (∀ p ∈ e.participants, p.user_id ≠ uid) →
      confirm_shared_expense store eid uid =
        (store, Except.error ⟨403, "You are not a participant"⟩)) := by
  constructor
  · intro h
    simp [confirm_shared_expense, h]
  · intro h hnp
    have hc := confirmParticipants_no_match e.participants uid hnp
    simp [confirm_shared_expense, h, hc]

/-- C4 witness: the 404 and 403 cases evaluated on concrete stores,
showing the store is returned unchanged. -/
theorem C4_witness :
    confirm_shared_expense [] "missing" "u-dave" =
      ([], Except.error ⟨404, "Shared expense not found"⟩) ∧
    confirm_shared_expense [expenseEx] "e1" "u-dave" =
      ([expenseEx], Except.error ⟨403, "You are not a participant"⟩) :=
  ⟨(C4_confirm_errors [] "missing" "u-dave" expenseEx).1 rfl,
   (C4_confirm_errors [expenseEx] "e1" "u-dave" expenseEx).2 rfl (by decide)⟩

/-- C5: ConfirmParticipation is idempotent: confirming twice yields the
same stored state as confirming once, and confirming an
already-confirmed participant leaves the store exactly as it was. -/
theorem C5_confirm_idempotent (store : List SharedExpense) (eid uid : String)
    (e : SharedExpense) (hfind : find_expense store eid = some e)
    (hconf : ∀ p ∈ e.participants, p.user_id = uid → p.confirmed = true) :
    (∀ s : List SharedExpense,
      (confirm_shared_expense (confirm_shared_expense s eid uid).1 eid uid).1 =
        (confirm_shared_expense s eid uid).1) ∧
    (confirm_shared_expense store eid uid).1 = store := by
  constructor
  · intro s
    cases hf : find_expense s eid with
    | none => simp [confirm_shared_expense, hf]
    | some e1 =>
      cases hb : (confirmParticipants e1.participants uid).2 with
      | false => simp [confirm_shared_expense, hf, hb]
      | true =>
        have h1 : (confirm_shared_expense s eid uid).1 =
            update_participants s eid (confirmParticipants e1.participants uid).1 := by
          simp [confirm_shared_expense, hf, hb]
        rw [h1]
        have h2 := find_expense_update s eid e1
          (confirmParticipants e1.participants uid).1 hf
        have h3 := confirmParticipants_idem e1.participants uid
        simp [confirm_shared_expense, h2, h3, hb, update_participants_twice]
  · have h1 := confirmParticipants_already e.participants uid hconf
    cases hb : (confirmParticipants e.participants uid).2 with
    | false => simp [confirm_shared_expense, hfind, hb]
    | true =>
      have h2 : update_participants store eid
          (confirmParticipants e.participants uid).1 = store := by
        rw [h1]
        exact update_participants_self store eid e hfind
      simp [confirm_shared_expense, hfind, hb, h2]

/-- C5 witness: confirming the already-confirmed creator on a concrete
store leaves the store unchanged. -/
theorem C5_witness : (confirm_shared_expense [expenseEx] "e1" "u-ann").1 = [expenseEx] :=
  (C5_confirm_idempotent [expenseEx] "e1" "u-ann" expenseEx rfl (by decide)).2

/-- C6: a successful ConfirmParticipation changes only the matching
participant's confirmed flag: the stored expense keeps every other field
(id, title, amounts, currency, creator, split type, status, dates), every
participant entry keeps its user id, email, name, amount and paid, a
confirmed flag can only change to true and only on an entry matching the
caller, and no core operation (create, confirm, settlements) ever resets
a confirmed flag from true to false. -/
theorem C6_confirm_frame_effect (store : List SharedExpense) (eid uid : String)
    (e : SharedExpense) (hfind : find_expense store eid = some e)
    (hsucc : (confirm_shared_expense store eid uid).2 = Except.ok "Confirmed") :
    find_expense (confirm_shared_expense store eid uid).1 eid =
      some { e with participants := (confirmParticipants e.participants uid).1 } ∧
    List.Forall₂ (confirm_frame uid) e.participants
      (confirmParticipants e.participants uid).1 ∧
    (∀ s (u : List User) d c i t,
      (create_shared_expense s u d c i t).1 = s ++ [build_shared_expense u d c i t]) ∧
    (∀ s i, (get_settlements s i).1 = s) := by
  cases hb : (confirmParticipants e.participants uid).2 with
  | false =>
    exfalso
    simp [confirm_shared_expense, hfind, hb] at hsucc
  | true =>
    have h1 : (confirm_shared_expense store eid uid).1 =
        update_participants store eid (confirmParticipants e.participants uid).1 := by
      simp [confirm_shared_expense, hfind, hb]
    rw [h1]
    refine ⟨find_expense_update store eid e _ hfind,
      confirmParticipants_frame e.participants uid,
      fun s u d c i t => rfl, fun s i => ?_⟩
    cases hf : find_expense s i <;> simp [get_settlements, hf]

/-- C6 witness: a successful confirm by an invitee on a concrete store
rewrites only the participants of the stored expense. -/
theorem C6_witness :
    find_expense (confirm_shared_expense [expenseEx] "e1" "u-bob").1 "e1" =
      some { expenseEx with
        participants := (confirmParticipants expenseEx.participants "u-bob").1 } :=
  (C6_confirm_frame_effect [expenseEx] "e1" "u-bob" expenseEx rfl rfl).1

/-- C10: ConfirmParticipation modifies at most one entry: it sets
confirmed on the first (lowest-index) participant whose user id equals the
caller's id, and when the caller's identity occurs in several entries every
later duplicate entry is left unchanged. -/
theorem C10_confirm_first_match (store : List SharedExpense) (eid uid : String)
    (e : SharedExpense) (l₁ l₂ : List SharedExpenseParticipant)
    (p : SharedExpenseParticipant)
    (hfind : find_expense store eid = some e)
    (hps : e.participants = l₁ ++ p :: l₂)
    (h₁ : ∀ q ∈ l₁, q.user_id ≠ uid) (hp : p.user_id = uid) :
    (confirm_shared_expense store eid uid).2 = Except.ok "Confirmed" ∧
    find_expense (confirm_shared_expense store eid uid).1 eid =
      some { e with participants := l₁ ++ { p with confirmed := true } :: l₂ } := by
  have hc : confirmParticipants e.participants uid =
      (l₁ ++ { p with confirmed := true } :: l₂, true) := by
    rw [hps]
    exact confirmParticipants_first_match l₁ l₂ p uid h₁ hp
  have h1 : confirm_shared_expense store eid uid =
      (update_participants store eid (l₁ ++ { p with confirmed := true } :: l₂),
        Except.ok "Confirmed") := by
    simp [confirm_shared_expense, hfind, hc]
  rw [h1]
  exact ⟨rfl, find_expense_update store eid e _ hfind⟩

/-- C10 witness: on a store whose expense lists the same identity twice,
confirming sets only the first matching entry; the later duplicate keeps
its fields. -/
theorem C10_witness :
    (confirm_shared_expense [dupExpense] "e10" "u-alice").2 = Except.ok "Confirmed" ∧
    find_expense (confirm_shared_expense [dupExpense] "e10" "u-alice").1 "e10" =
      some { dupExpense with
        participants := [carolP] ++ { dupP1 with confirmed := true } :: [dupP2] } :=
  C10_confirm_first_match [dupExpense] "e10" "u-alice" dupExpense [carolP] [dupP2]
    dupP1 rfl rfl (by decide) rfl

theorem negData_total_nonpos : negData.total_amount ≤ 0 := by
  norm_num [negData]

/-- C7 counterexample: a CreateSharedExpense call with totalAmount -5 does
not fail with any error; it returns the built record and inserts it into
the store, so a SharedExpense record with the non-positive total is
created. -/
theorem C7_counterexample :
    negData.total_amount ≤ 0 ∧
    (create_shared_expense [] [] negData negU "e7" "t7").2 =
      Except.ok (build_shared_expense [] negData negU "e7" "t7") ∧
    (create_shared_expense [] [] negData negU "e7" "t7").1 =
      [build_shared_expense [] negData negU "e7" "t7"] ∧
    (build_shared_expense [] negData negU "e7" "t7").total_amount = -5 :=
  ⟨negData_total_nonpos, rfl, rfl, rfl⟩

/-- C7 amended: CreateSharedExpense performs no validation of totalAmount:
every call whose totalAmount is not positive still succeeds, inserts the
record into the store and stores the given total; no InvalidAmount failure
exists in the code. -/
theorem C7_no_amount_validation (store : List SharedExpense) (users : List User)
    (data : SharedExpenseCreate) (cu : User) (eid ts : String)
    (_h : data.total_amount ≤ 0) :
    (create_shared_expense store users data cu eid ts).2 =
      Except.ok (build_shared_expense users data cu eid ts) ∧
    (create_shared_expense store users data cu eid ts).1 =
      store ++ [build_shared_expense users data cu eid ts] ∧
    (build_shared_expense users data cu eid ts).total_amount = data.total_amount :=
  ⟨rfl, rfl, rfl⟩

/-- C7 witness: the amended no-validation behaviour evaluated at the
concrete non-positive total. -/
theorem C7_witness :
    (create_shared_expense [] [] negData negU "e7" "t7").2 =
      Except.ok (build_shared_expense [] negData negU "e7" "t7") ∧
    (create_shared_expense [] [] negData negU "e7" "t7").1 =
      [] ++ [build_shared_expense [] negData negU "e7" "t7"] ∧
    (build_shared_expense [] negData negU "e7" "t7").total_amount =
      negData.total_amount :=
  C7_no_amount_validation [] [] negData negU "e7" "t7" negData_total_nonpos

/-- C8: unresolved invitee emails are silently skipped: the participants
are exactly the resolved invitees followed by the creator, the operation
always succeeds, and when every invitee email is unresolvable the created
expense has exactly one participant, the creator. -/
theorem C8_unresolved_skipped (store : List SharedExpense) (users : List User)
    (data : SharedExpenseCreate) (cu : User) (eid ts : String) (e : SharedExpense)
    (hok : (create_shared_expense store users data cu eid ts).2 = Except.ok e) :
    (∃ a : ℚ,
      e.participants =
        ((data.participant_emails.filterMap (find_user_by_email users)).map
          (fun u => { user_id := u.id, email := u.email, full_name := u.full_name,
                      amount := a, paid := 0, confirmed := false })) ++
        [{ user_id := cu.id, email := cu.email, full_name := cu.full_name,
           amount := a, paid := data.total_amount, confirmed := true }]) ∧
    ((∀ em ∈ data.participant_emails, find_user_by_email users em = none) →
      e.participants.length = 1 ∧
      ∃ a : ℚ,
        e.participants =
          [{ user_id := cu.id, email := cu.email, full_name := cu.full_name,
             amount := a, paid := data.total_amount, confirmed := true }]) := by
  have he : build_shared_expense users data cu eid ts = e := by
    simpa [create_shared_expense] using hok
  subst he
  obtain ⟨a, ha⟩ := participants_shape users data cu eid ts
  refine ⟨⟨a, ha⟩, fun hall => ?_⟩
  have hnil : data.participant_emails.filterMap (find_user_by_email users) = [] := by
    rw [List.filterMap_eq_nil_iff]
    exact hall
  rw [ha, hnil]
  exact ⟨rfl, a, rfl⟩

/-- C8 witness: creating with a single unresolvable invitee email yields
exactly one participant, the creator. -/
theorem C8_witness :
    ghostExpense.participants.length = 1 ∧
    ∃ a : ℚ,
      ghostExpense.participants =
        [{ user_id := annU.id, email := annU.email, full_name := annU.full_name,
           amount := a, paid := ghostData.total_amount, confirmed := true }] :=
  (C8_unresolved_skipped [] [bobU] ghostData annU "e8" "t8" ghostExpense rfl).2
    (by decide)

/-- C9 counterexample: when the creator's own email is among the invitee
emails, the created expense lists the creator twice: the participant user
id list is ["u-alice", "u-alice"], which has a duplicate, falsifying the
claimed one-entry-per-identity invariant. -/
theorem C9_counterexample :
    (create_shared_expense [] [aliceU] selfData aliceU "e9" "t9").2 =
      Except.ok (build_shared_expense [aliceU] selfData aliceU "e9" "t9") ∧
    (build_shared_expense [aliceU] selfData aliceU "e9" "t9").participants.map
      (fun p => p.user_id) = ["u-alice", "u-alice"] ∧
    ¬ ((build_shared_expense [aliceU] selfData aliceU "e9" "t9").participants.map
      (fun p => p.user_id)).Nodup := by
  have h2 : (build_shared_expense [aliceU] selfData aliceU "e9" "t9").participants.map
      (fun p => p.user_id) = ["u-alice", "u-alice"] := by
    rw [participants_user_ids]
    rfl
  refine ⟨rfl, h2, ?_⟩
  rw [h2]
  decide

/-- C9 amended: the participants list is always non-empty and its user ids
are exactly the resolved invitee ids followed by the creator id; it is
duplicate-free whenever the resolved invitee ids are duplicate-free and do
not contain the creator id — the core does not de-duplicate a creator who
is also among the invitee emails. -/
theorem C9_nonempty_user_ids (store : List SharedExpense) (users : List User)
    (data : SharedExpenseCreate) (cu : User) (eid ts : String) (e : SharedExpense)
    (hok : (create_shared_expense store users data cu eid ts).2 = Except.ok e) :
    e.participants ≠ [] ∧
    e.participants.map (fun p => p.user_id) =
      ((data.participant_emails.filterMap (find_user_by_email users)).map
        (fun u => u.id)) ++ [cu.id] ∧
    ((((data.participant_emails.filterMap (find_user_by_email users)).map
        (fun u => u.id)).Nodup) →
      cu.id ∉ ((data.participant_emails.filterMap (find_user_by_email users)).map
        (fun u => u.id)) →
      (e.participants.map (fun p => p.user_id)).Nodup) := by
  have he : build_shared_expense users data cu eid ts = e := by
    simpa [create_shared_expense] using hok
  subst he
  have hids := participants_user_ids users data cu eid ts
  refine ⟨?_, hids, ?_⟩
  · intro hnil
    rw [hnil] at hids
    simp at hids
  · intro h1 h2
    rw [hids, List.nodup_append]
    refine ⟨h1, List.nodup_singleton _, ?_⟩
    intro x hx hx2
    have hxc : x = cu.id := by simpa using hx2
    subst hxc
    exact h2 hx

/-- C9 witness: the amended invariant evaluated on a concrete creation
with distinct identities. -/
theorem C9_witness : expenseEx.participants ≠ [] :=
  (C9_nonempty_user_ids [] usersEx dataEx annU "e1" "t1" expenseEx rfl).1

end FinVault
